import Mathlib

/-!
Verification development for the QueGen question-paper generator.

The repository under verification is a retrieval-augmented question-paper
generator.  Its React frontend (NoteUploadForm, QuestionForm, AnswerDisplay,
ReindexButton, PaperRequirementsForm, App, QuestionPaperDisplay) is embedded
below directly from the JavaScript source.  The FastAPI backend (chunking,
FAISS vector index, retrieval, OpenAI-based generation, paper assembly) is not
part of the available sources, so the backend components are modelled from the
specification; every such definition carries a doc comment starting with
"Modelled from the spec:".

Strings are embedded as `List Char` so that every definition is executable and
every concrete instance can be settled by `decide` or `rfl`.
-/

/-- The whitespace characters recognised by the JavaScript `\s` class and by
`String.prototype.trim`, restricted to the ASCII range that this application
manipulates. -/
def isJsWs (c : Char) : Bool :=
  c = ' ' || c = '\t' || c = '\n' || c = '\r' || c = '\x0b' || c = '\x0c'

/-- JavaScript `String.prototype.trim`: removes leading and trailing
whitespace.  Used by QuestionForm.handleSubmit (`question.trim()`) and
PaperRequirementsForm.handleSubmit (`subject.trim()`). -/
def jsTrim (s : List Char) : List Char :=
  ((s.dropWhile isJsWs).reverse.dropWhile isJsWs).reverse

/-- JavaScript `str.replace(/\s+/g, "_")` as used in
QuestionPaperDisplay.handleDownload (QuestionPaperDisplay.jsx line 20): each
maximal run of whitespace characters is replaced by a single underscore. -/
def replaceWsRuns : List Char → List Char
  | [] => []
  | c :: cs =>
    if isJsWs c then '_' :: replaceWsRuns (cs.dropWhile isJsWs)
    else c :: replaceWsRuns cs
termination_by l => l.length
decreasing_by
  · exact Nat.lt_succ_of_le (List.dropWhile_sublist _).length_le
  · exact Nat.lt_succ_of_le (Nat.le_refl _)

/-- Splits a character list into its maximal runs of characters that agree on
whether they are whitespace.  This is the combinatorial reading of the
specification phrase "each maximal whitespace run". -/
def wsRuns : List Char → List (List Char)
  | [] => []
  | c :: cs =>
    (c :: cs.takeWhile (fun d => isJsWs d == isJsWs c)) ::
      wsRuns (cs.dropWhile (fun d => isJsWs d == isJsWs c))
termination_by l => l.length
decreasing_by
  · exact Nat.lt_succ_of_le (List.dropWhile_sublist _).length_le

/-- Collapses one run: a whitespace run becomes a single underscore, any other
run is kept verbatim. -/
def collapseRun (r : List Char) : List Char :=
  match r with
  | [] => []
  | c :: _ => if isJsWs c then ['_'] else r

/-- Specification reading of the subject transformation: split into maximal
runs and collapse every whitespace run to one underscore. -/
def specCollapseWs (s : List Char) : List Char :=
  ((wsRuns s).map collapseRun).flatten

/-- The suggested download filename exactly as handleDownload builds it
(QuestionPaperDisplay.jsx line 20):
`questionPaper.subject.replace(/\s+/g, "_")` followed by
`_Question_Paper.` and the format extension. -/
def downloadFilename (subject format : List Char) : List Char :=
  replaceWsRuns subject ++ "_Question_Paper.".data ++ format

/-- The filename as the specification words describe it: the subject with each
maximal whitespace run replaced by a single underscore, followed by
`_Question_Paper.` and the format extension. -/
def specDownloadFilename (subject format : List Char) : List Char :=
  specCollapseWs subject ++ "_Question_Paper.".data ++ format

/-! ### NoteUploadForm (src/unnamed/part_000, lines 17 to 41) -/

/-- A browser File object, as far as the upload form inspects it: its name and
its MIME type. -/
structure JsFile where
  name : List Char
  type : List Char
deriving DecidableEq

/-- The filter both drop and file-picker handlers apply:
`file.type === "text/plain" || file.name.endsWith(".txt")`. -/
def isTextFile (f : JsFile) : Bool :=
  f.type = "text/plain".data || List.isSuffixOf ".txt".data f.name

/-- The three ways the selected-files state of NoteUploadForm changes. -/
inductive FileEvent where
  | drop (fs : List JsFile)
  | pick (fs : List JsFile)
  | removeAt (i : Nat)

/-- One state update of the files state.  handleDrop only acts when
`e.dataTransfer.files[0]` is truthy, then appends the filtered files;
handleFileInput appends the filtered files; removeFile keeps exactly the
entries whose position differs from the removed index
(`prev.filter((_, i) => i !== index)`). -/
def fileStep (state : List JsFile) : FileEvent → List JsFile
  | .drop fs => if fs.isEmpty then state else state ++ fs.filter isTextFile
  | .pick fs => state ++ fs.filter isTextFile
  | .removeAt i => (state.enum.filter (fun p => p.1 != i)).map Prod.snd

/-- The files state reached from the initial empty selection after a sequence
of drag-drop additions, file-picker additions and removals. -/
def runFileEvents (evs : List FileEvent) : List JsFile :=
  evs.foldl fileStep []

/-! ### QuestionForm (src/unnamed/part_000, lines 215 to 258) -/

/-- The observable effects of submitting the ask form. -/
inductive AskFormEffect where
  | submitQuestion (q : List Char)
  | clearField
deriving DecidableEq

/-- QuestionForm.handleSubmit (part_000 lines 220 to 226): the question is
submitted, trimmed, only when the trimmed text is truthy (non-empty) and no
request is in flight; otherwise nothing at all happens. -/
def questionFormSubmit (question : List Char) (loading : Bool) :
    List AskFormEffect :=
  if !(jsTrim question).isEmpty && !loading then
    [.submitQuestion (jsTrim question), .clearField]
  else []

/-! ### PaperRequirementsForm (src/unnamed/part_001, lines 15 to 237) -/

/-- PaperRequirementsForm.calculateTotalMarks (part_001 lines 52 to 61): sums
`count * marks_per_question` over the requested categories, skipping category
keys that are not among the available categories and non-positive counts.
The available categories are represented by their only consulted field,
`marks_per_question`. -/
def calculateTotalMarks (categories : List (List Char × Nat))
    (available : List (List Char × Nat)) : Nat :=
  categories.foldl
    (fun total p =>
      match available.lookup p.1 with
      | some marks => if p.2 > 0 then total + p.2 * marks else total
      | none => total)
    0

/-- The observable effects of submitting the paper-requirements form. -/
inductive PaperFormEffect where
  | errorSet (msg : Option (List Char))
  | loadingSet (b : Bool)
  | networkRequest (totalMarksField : Nat)
  | paperDelivered
deriving DecidableEq

/-- The error message of the all-counts-zero guard. -/
def noCategoryMsg : List Char :=
  "Please select at least one question category".data

/-- The error message of the blank-subject guard. -/
def noSubjectMsg : List Char :=
  "Please enter a subject name".data

/-- PaperRequirementsForm.handleSubmit (part_001 lines 71 to 124).  The two
guards run before any loading-state change or fetch: all counts zero reports
an error and returns, then a blank subject reports an error and returns.
Otherwise the handler sets loading, clears the error, issues the
generate_paper request carrying the count-derived total marks, delivers the
paper or reports the response error, and clears loading.  The parameter
`response` stands for the outcome of the external fetch. -/
def paperFormSubmit (categories : List (List Char × Nat))
    (available : List (List Char × Nat)) (subject : List Char)
    (response : Except (List Char) Unit) : List PaperFormEffect :=
  if (categories.map Prod.snd).all (fun c => c == 0) then
    [.errorSet (some noCategoryMsg)]
  else if (jsTrim subject).isEmpty then
    [.errorSet (some noSubjectMsg)]
  else
    [.loadingSet true, .errorSet none,
      .networkRequest (calculateTotalMarks categories available)]
      ++ (match response with
          | .ok _ => [.paperDelivered]
          | .error e => [.errorSet (some e)])
      ++ [.loadingSet false]

/-! ### QuestionPaperDisplay (src/frontend/src/components/QuestionPaperDisplay.jsx) -/

/-- A question as delivered inside the generated paper.  The display component
reads `question.id`, `question.type`, `question.question`, `question.marks`
and, when present, `question.options`. -/
structure Question where
  id : Nat
  type : List Char
  question : List Char
  marks : Nat
  options : Option (List (List Char))
deriving DecidableEq

/-- Appends a question to the entry of its type key, exactly as
`grouped[question.type].push(question)` updates the one entry of a JavaScript
object with that key. -/
def addToGroup (t : List Char) (q : Question) :
    List (List Char × List Question) → List (List Char × List Question)
  | [] => []
  | p :: ps => if p.1 = t then (p.1, p.2 ++ [q]) :: ps else p :: addToGroup t q ps

/-- One step of groupQuestionsByType (QuestionPaperDisplay.jsx lines 33 to
42): a question is pushed onto the existing entry of its type, or a new entry
is appended at the end, which is exactly how JavaScript object keys acquire
their insertion order. -/
def insertGrouped (acc : List (List Char × List Question)) (q : Question) :
    List (List Char × List Question) :=
  if q.type ∈ acc.map Prod.fst then addToGroup q.type q acc
  else acc ++ [(q.type, [q])]

/-- groupQuestionsByType: folds the questions of the paper, in order, into a
type-keyed association list whose key order is the insertion order of the
types. -/
def groupQuestionsByType (qs : List Question) :
    List (List Char × List Question) :=
  qs.foldl insertGrouped []

/-- The order of first occurrence of the values of a list; the key order that
a JavaScript object accumulates. -/
def firstOccurrences (ts : List (List Char)) : List (List Char) :=
  ts.foldl (fun acc t => if t ∈ acc then acc else acc ++ [t]) []

/-- Total number of questions across the groups. -/
def totalQuestions (gs : List (List Char × List Question)) : Nat :=
  (gs.map (fun g => g.2.length)).sum

/-- The starting display number of group `i` as the component computes it
(QuestionPaperDisplay.jsx lines 169 to 175): `questionNumber` starts at 1 and
the loop adds the length of every earlier group. -/
def groupStart (gs : List (List Char × List Question)) (i : Nat) : Nat :=
  1 + ((gs.take i).map (fun g => g.2.length)).sum

/-- The rendered question numbers, group after group: the questions of a group
starting at `start` are shown as `start + index`
(QuestionPaperDisplay.jsx line 194), and the next group starts after them.
The threaded accumulator equals `groupStart` at every group, which the lemma
`groupStart_succ` records. -/
def renderNumbersFrom (start : Nat) :
    List (List Char × List Question) → List Nat
  | [] => []
  | g :: rest => List.range' start g.2.length ++ renderNumbersFrom (start + g.2.length) rest

/-- All question numbers of the rendered paper in display order. -/
def renderNumbers (gs : List (List Char × List Question)) : List Nat :=
  renderNumbersFrom 1 gs

/-- The option labels as rendered for a choice question:
`String.fromCharCode(65 + optionIndex)` (QuestionPaperDisplay.jsx line 206). -/
def optionLabels (opts : List (List Char)) : List Char :=
  (List.range opts.length).map (fun i => Char.ofNat (65 + i))

/-! ### Spec-modelled backend: categories and the paper assembler -/

/-- Modelled from the spec: the closed set of question categories (spec
section 9 and the repository README).  The backend source is not available. -/
inductive Category where
  | mcq
  | short_answer
  | long_answer
  | case_study
  | application_based
  | numerical
deriving DecidableEq

/-- Modelled from the spec: the fixed, compiled-in marks-per-question table
(README: MCQ 1, short answer 2, long answer 5, case study 10, application
based 3, numerical 4). -/
def marksPerQuestion : Category → Nat
  | .mcq => 1
  | .short_answer => 2
  | .long_answer => 5
  | .case_study => 10
  | .application_based => 3
  | .numerical => 4

/-- Modelled from the spec: the JSON key of each category, as the frontend
categoryMap of QuestionPaperDisplay.getCategoryInfo lists them. -/
def categoryKey : Category → List Char
  | .mcq => "mcq".data
  | .short_answer => "short_answer".data
  | .long_answer => "long_answer".data
  | .case_study => "case_study".data
  | .application_based => "application_based".data
  | .numerical => "numerical".data

/-- Modelled from the spec: the fixed category display order (spec section
4.6, MCQ before short answer, then the remaining categories in README
order). -/
def fixedCategoryOrder : List Category :=
  [.mcq, .short_answer, .long_answer, .case_study, .application_based, .numerical]

/-- Modelled from the spec: one candidate item parsed out of a completion in
question-generation mode, before schema validation: its text and whatever
options the completion offered. -/
structure RawItem where
  text : List Char
  options : List (List Char)
deriving DecidableEq

/-- A validated question draft: text plus options present only for the choice
category. -/
structure QuestionDraft where
  question : List Char
  options : Option (List (List Char))
deriving DecidableEq

/-- Modelled from the spec: schema validation of one candidate item (spec
section 4.5, question-generation mode): the choice category requires exactly
4 options, every other category requires free text only, so the draft keeps
no options there. -/
def parseItem (c : Category) (r : RawItem) : Option QuestionDraft :=
  match c with
  | .mcq => if r.options.length = 4 then some ⟨r.text, some r.options⟩ else none
  | _ => some ⟨r.text, none⟩

/-- Modelled from the spec: question-generation mode returns the candidate
items that validate against the category schema, at most the requested
count (a shortfall is reported, never padded with invented questions). -/
def genQuestions (c : Category) (n : Nat) (raws : List RawItem) :
    List QuestionDraft :=
  ((raws.filterMap (parseItem c)).take n)

/-- Modelled from the spec: the generated paper object (spec section 3);
identifier and timestamp are omitted because no claim mentions them. -/
structure QuestionPaper where
  subject : List Char
  duration : Nat
  difficulty : List Char
  total_marks : Nat
  questions : List Question
deriving DecidableEq

/-- The questions contributed by one category: every draft the generator
returned, stamped with the category key and that category's fixed mark
value. -/
def categoryQuestions (c : Category) (counts : Category → Nat)
    (raws : Category → List RawItem) : List Question :=
  (genQuestions c (counts c) (raws c)).map
    (fun d => ⟨0, categoryKey c, d.question, marksPerQuestion c, d.options⟩)

/-- Modelled from the spec: PaperAssembler.assemble (spec section 4.6).  For
each category with a non-zero requested count, in the fixed category order,
it invokes the generator and collects the results; the total marks are
aggregated per category from the questions actually returned.  `raws c`
stands for the candidate items the external completion produced for category
`c`, so a partial generation failure is simply a short or empty list. -/
def assemble (subject : List Char) (duration : Nat) (difficulty : List Char)
    (counts : Category → Nat) (raws : Category → List RawItem) : QuestionPaper :=
  let cats := fixedCategoryOrder.filter (fun c => counts c != 0)
  { subject := subject
    duration := duration
    difficulty := difficulty
    total_marks :=
      (cats.map (fun c => (genQuestions c (counts c) (raws c)).length * marksPerQuestion c)).sum
    questions := (cats.map (fun c => categoryQuestions c counts raws)).flatten }

/-! ### Spec-modelled backend: vector index and retrieval -/

/-- Modelled from the spec: an embedded chunk, the unit stored in the vector
index.  Vector entries are integers so that similarity comparisons are exact
and every concrete query kernel-evaluates; the ranking claims proved below do
not depend on the numeric field. -/
structure EmbeddedChunk where
  chunk_id : Nat
  text : List Char
  vector : List ℤ
deriving DecidableEq

/-- Dot product, the similarity score of the index on normalised vectors
(spec section 4.3: cosine similarity, equivalently an inner product on
normalised vectors). -/
def dotp (v w : List ℤ) : ℤ :=
  (List.zipWith (fun a b => a * b) v w).sum

/-- Modelled from the spec: one retrieval result, a chunk with its similarity
score. -/
structure RetrievalResult where
  chunk : EmbeddedChunk
  score : ℤ
deriving DecidableEq

/-- The ranking order of query results: higher score first, ties broken by
ascending chunk identifier (spec section 4.3). -/
def rankLE (a b : RetrievalResult) : Prop :=
  b.score < a.score ∨ (a.score = b.score ∧ a.chunk.chunk_id ≤ b.chunk.chunk_id)

instance (a b : RetrievalResult) : Decidable (rankLE a b) := by
  unfold rankLE; exact inferInstance

/-- Insertion into a ranked list. -/
def insertRanked (x : RetrievalResult) : List RetrievalResult → List RetrievalResult
  | [] => [x]
  | y :: ys => if rankLE x y then x :: y :: ys else y :: insertRanked x ys

/-- Insertion sort by the ranking order. -/
def sortRanked (l : List RetrievalResult) : List RetrievalResult :=
  l.foldr insertRanked []

/-- Modelled from the spec: VectorIndex.query (spec section 4.3): score every
indexed chunk against the query vector, order by descending similarity with
ties broken by ascending chunk identifier, and keep the top k. -/
def queryIndex (chunks : List EmbeddedChunk) (v : List ℤ) (k : Nat) :
    List RetrievalResult :=
  (sortRanked (chunks.map (fun c => ⟨c, dotp v c.vector⟩))).take k

/-- Modelled from the spec: a fully built vector index snapshot. -/
structure VectorIndex where
  chunks : List EmbeddedChunk
deriving DecidableEq

/-- Building an index from a complete set of embedded chunks. -/
def buildIndex (cs : List EmbeddedChunk) : VectorIndex := ⟨cs⟩

/-- Modelled from the spec: the state transitions of the shared index.  A
rebuild is a single atomic step (spec section 5: build off to the side, then
swap the shared reference); the `ok` flag records whether the rebuild
succeeded, a failed rebuild covering every failure of chunking, embedding or
persistence. -/
inductive IndexOp where
  | rebuild (cs : List EmbeddedChunk) (ok : Bool)
deriving DecidableEq

/-- One atomic transition of the shared index state: a successful rebuild
swaps in the fully built index, a failed rebuild leaves the previous state
untouched. -/
def stepIndex (s : Option VectorIndex) : IndexOp → Option VectorIndex
  | .rebuild cs ok => if ok then some (buildIndex cs) else s

/-- The index state reached from `s` after a sequence of rebuild attempts. -/
def runIndexOps (s : Option VectorIndex) : List IndexOp → Option VectorIndex
  | [] => s
  | op :: rest => runIndexOps (stepIndex s op) rest

/-! ### Spec-modelled backend: the structured answer and ask -/

/-- Modelled from the spec: the structured answer schema (spec section 3),
three mandatory non-empty fields. -/
structure StructuredAnswer where
  direct_answer : List Char
  explanation : List Char
  summary : List Char
deriving DecidableEq

/-- The three section labels the answer prompt requests. -/
def sectionLabels : List (List Char) :=
  ["Direct Answer:".data, "Explanation:".data, "Summary:".data]

/-- Modelled from the spec: locating one labelled section in the completion,
given as a list of lines.  The section content is every line after the label
line up to the next label; an absent label or empty content counts as a parse
failure for that section. -/
def extractSection (label : List Char) (lines : List (List Char)) :
    Option (List Char) :=
  match lines.dropWhile (fun l => l != label) with
  | [] => none
  | _ :: rest =>
    let content := (rest.takeWhile (fun l => !(sectionLabels.contains l))).flatten
    if content.isEmpty then none else some content

/-- Modelled from the spec: the deterministic degraded answer (spec sections
4.5 and 9): the most relevant passage is echoed as the direct answer and the
remaining fields receive fixed valid placeholders, the exact wording being an
implementation choice that the spec leaves open. -/
def fallbackAnswer (topChunk : List Char) : StructuredAnswer :=
  { direct_answer :=
      if topChunk.isEmpty then "No relevant context was found.".data else topChunk
    explanation := "See the retrieved passage echoed above.".data
    summary := "Summary unavailable for degraded answers.".data }

/-- Modelled from the spec: parsing a completion into the structured answer by
locating the three labels, falling back to the deterministic degraded answer
when any section is missing or empty. -/
def parseAnswer (lines : List (List Char)) (topChunk : List Char) :
    StructuredAnswer :=
  match extractSection "Direct Answer:".data lines,
        extractSection "Explanation:".data lines,
        extractSection "Summary:".data lines with
  | some a, some b, some c => ⟨a, b, c⟩
  | _, _, _ => fallbackAnswer topChunk

/-- The errors the ask boundary can report before producing an answer. -/
inductive AskError where
  | emptyQuestion
  | indexNotReady
deriving DecidableEq

/-- The observable outcome of one ask call: its result and how many external
embedding and completion calls it incurred. -/
structure AskOutcome where
  result : Except AskError StructuredAnswer
  embedCalls : Nat
  completionCalls : Nat

/-- The text of the most relevant passage for a query vector, or nothing when
the index holds no chunks. -/
def topPassage (idx : VectorIndex) (qv : List ℤ) : List Char :=
  match queryIndex idx.chunks qv 3 with
  | [] => []
  | r :: _ => r.chunk.text

/-- Modelled from the spec: the ask boundary (spec sections 4.4 and 4.5).
Empty or whitespace-only question text is rejected before anything else, so
no embedding or completion call is incurred; with no index loaded the call
fails with IndexNotReady, still before any external call; otherwise the query
is embedded (`qv` is the resulting vector), the index is queried, one
completion is requested (`completionLines` is its text) and parsed into the
structured answer. -/
def ask (question : List Char) (qv : List ℤ) (index : Option VectorIndex)
    (completionLines : List (List Char)) : AskOutcome :=
  if (jsTrim question).isEmpty then
    ⟨.error .emptyQuestion, 0, 0⟩
  else
    match index with
    | none => ⟨.error .indexNotReady, 0, 0⟩
    | some idx =>
      ⟨.ok (parseAnswer completionLines (topPassage idx qv)), 1, 1⟩

/-! ### Concrete instances used to exercise the theorems -/

/-- A short-answer question, as delivered in a paper. -/
def exQSA : Question :=
  ⟨1, "short_answer".data, "State one fact.".data, 2, none⟩

/-- A choice question, as delivered in a paper. -/
def exQMcq : Question :=
  ⟨2, "mcq".data, "Pick one.".data, 1,
    some ["a".data, "b".data, "c".data, "d".data]⟩

/-- A request asking for one MCQ and nothing else. -/
def exCounts : Category → Nat :=
  fun c => match c with | .mcq => 1 | _ => 0

/-- Candidate completion items offering one valid four-option question. -/
def exRaws : Category → List RawItem :=
  fun _ => [⟨"Which one?".data, ["a".data, "b".data, "c".data, "d".data]⟩]

/-- The question that `assemble` produces from `exCounts` and `exRaws`. -/
def exMcqQ : Question :=
  ⟨0, categoryKey .mcq, "Which one?".data, 1,
    some ["a".data, "b".data, "c".data, "d".data]⟩

/-- A tiny two-chunk index used to exercise the query theorem. -/
def exChunks : List EmbeddedChunk :=
  [⟨1, "first chunk".data, [1, 0]⟩, ⟨2, "second chunk".data, [0, 1]⟩]

/-! ### Helper lemmas -/

/-- Trimming a whitespace-only string yields the empty string. -/
theorem jsTrim_eq_nil_of_all_ws {l : List Char} (h : ∀ c ∈ l, isJsWs c = true) :
    jsTrim l = [] := by
  unfold jsTrim
  rw [List.dropWhile_eq_nil_iff.mpr h]
  rfl

/-- Every file present after one state update was already selected or passes
the plain-text filter. -/
theorem fileStep_mem {s : List JsFile} {ev : FileEvent} {f : JsFile}
    (hf : f ∈ fileStep s ev) : f ∈ s ∨ isTextFile f = true := by
  cases ev with
  | drop fs =>
    by_cases he : fs.isEmpty
    · rw [fileStep, if_pos he] at hf
      exact Or.inl hf
    · rw [fileStep, if_neg he] at hf
      rcases List.mem_append.mp hf with h | h
      · exact Or.inl h
      · exact Or.inr (List.of_mem_filter h)
  | pick fs =>
    rcases List.mem_append.mp hf with h | h
    · exact Or.inl h
    · exact Or.inr (List.of_mem_filter h)
  | removeAt i =>
    rcases List.mem_map.mp hf with ⟨pr, hpr, rfl⟩
    have hen : pr ∈ s.enum := List.mem_of_mem_filter hpr
    have : pr.2 ∈ s.enum.map Prod.snd := List.mem_map_of_mem Prod.snd hen
    rw [List.enum_map_snd] at this
    exact Or.inl this

/-- The plain-text invariant is preserved along any event sequence. -/
theorem runFileEvents_aux :
    ∀ (evs : List FileEvent) (s : List JsFile),
      (∀ f ∈ s, isTextFile f = true) →
      ∀ f ∈ evs.foldl fileStep s, isTextFile f = true := by
  intro evs
  induction evs with
  | nil => intro s hs f hf; exact hs f hf
  | cons ev rest ih =>
    intro s hs f hf
    refine ih (fileStep s ev) ?_ f hf
    intro g hg
    rcases fileStep_mem hg with h | h
    · exact hs g h
    · exact h

/-- C3: a question consisting only of whitespace (or nothing) is rejected
before anything happens: the ask form submits nothing at all, and the ask
boundary answers with the empty-question error while incurring zero embedding
calls and zero completion calls. -/
theorem c3_whitespace_question_rejected (question : List Char) (loading : Bool)
    (qv : List ℤ) (index : Option VectorIndex)
    (completionLines : List (List Char))
    (h : ∀ c ∈ question, isJsWs c = true) :
    questionFormSubmit question loading = [] ∧
    ask question qv index completionLines = ⟨.error .emptyQuestion, 0, 0⟩ := by
  have ht : jsTrim question = [] := jsTrim_eq_nil_of_all_ws h
  constructor
  · unfold questionFormSubmit
    rw [ht]
    rfl
  · unfold ask
    rw [ht]
    rfl

/-- Witness for C3 at the two-space question. -/
theorem c3_whitespace_question_rejected_witness :
    questionFormSubmit "  ".data false = [] ∧
    ask "  ".data [] none [] = ⟨.error .emptyQuestion, 0, 0⟩ :=
  c3_whitespace_question_rejected "  ".data false [] none [] (by decide)

/-- C8: after any sequence of drag-drop additions, file-picker additions and
removals, every file in the selected-files state passes the plain-text
filter: its MIME type is text/plain or its name ends in .txt. -/
theorem c8_files_state_only_text_files (evs : List FileEvent) (f : JsFile)
    (h : f ∈ runFileEvents evs) : isTextFile f = true :=
  runFileEvents_aux evs [] (by intro g hg; cases hg) f h

/-- Witness for C8: one dropped text file is in the state and is a text
file. -/
theorem c8_files_state_only_text_files_witness :
    isTextFile ⟨"notes.txt".data, "text/plain".data⟩ = true :=
  c8_files_state_only_text_files
    [.drop [⟨"notes.txt".data, "text/plain".data⟩]]
    ⟨"notes.txt".data, "text/plain".data⟩ (by decide)

/-- C9: when every requested category count is zero, or the subject is empty
or whitespace-only, the paper-requirements submit handler only reports an
error: it performs no network request and no loading-state change. -/
theorem c9_invalid_paper_request_never_issued
    (categories available : List (List Char × Nat)) (subject : List Char)
    (response : Except (List Char) Unit)
    (h : (∀ p ∈ categories, p.2 = 0) ∨ (∀ c ∈ subject, isJsWs c = true)) :
    (paperFormSubmit categories available subject response
        = [.errorSet (some noCategoryMsg)] ∨
      paperFormSubmit categories available subject response
        = [.errorSet (some noSubjectMsg)]) ∧
    (∀ n, PaperFormEffect.networkRequest n
        ∉ paperFormSubmit categories available subject response) ∧
    (∀ b, PaperFormEffect.loadingSet b
        ∉ paperFormSubmit categories available subject response) := by
  have hres :
      paperFormSubmit categories available subject response
        = [.errorSet (some noCategoryMsg)] ∨
      paperFormSubmit categories available subject response
        = [.errorSet (some noSubjectMsg)] := by
    unfold paperFormSubmit
    by_cases hall : (categories.map Prod.snd).all (fun c => c == 0) = true
    · rw [if_pos hall]
      exact Or.inl rfl
    · rcases h with hz | hws
      · exfalso
        apply hall
        rw [List.all_eq_true]
        intro x hx
        rcases List.mem_map.mp hx with ⟨p, hp, rfl⟩
        rw [hz p hp]
        rfl
      · rw [if_neg hall, jsTrim_eq_nil_of_all_ws hws]
        exact Or.inr rfl
  refine ⟨hres, ?_, ?_⟩
  · intro n hn
    rcases hres with he | he <;> rw [he] at hn <;> simp at hn
  · intro b hb
    rcases hres with he | he <;> rw [he] at hb <;> simp at hb

/-- Witness for C9: a request with a single category of count zero. -/
theorem c9_invalid_paper_request_never_issued_witness :
    (paperFormSubmit [("mcq".data, 0)] [] "Biology".data (.ok ())
        = [.errorSet (some noCategoryMsg)] ∨
      paperFormSubmit [("mcq".data, 0)] [] "Biology".data (.ok ())
        = [.errorSet (some noSubjectMsg)]) ∧
    (∀ n, PaperFormEffect.networkRequest n
        ∉ paperFormSubmit [("mcq".data, 0)] [] "Biology".data (.ok ())) ∧
    (∀ b, PaperFormEffect.loadingSet b
        ∉ paperFormSubmit [("mcq".data, 0)] [] "Biology".data (.ok ())) :=
  c9_invalid_paper_request_never_issued [("mcq".data, 0)] [] "Biology".data
    (.ok ()) (Or.inl (by decide))

/-- Appending a question to its existing group changes no keys. -/
theorem keys_addToGroup (t : List Char) (q : Question) :
    ∀ acc : List (List Char × List Question),
      (addToGroup t q acc).map Prod.fst = acc.map Prod.fst := by
  intro acc
  induction acc with
  | nil => rfl
  | cons p ps ih =>
    unfold addToGroup
    by_cases hp : p.1 = t
    · rw [if_pos hp]
      rfl
    · rw [if_neg hp, List.map_cons, List.map_cons, ih]

/-- The total question count across groups, unfolded over a cons. -/
theorem totalQuestions_cons (p : List Char × List Question)
    (ps : List (List Char × List Question)) :
    totalQuestions (p :: ps) = p.2.length + totalQuestions ps := by
  unfold totalQuestions
  rw [List.map_cons, List.sum_cons]

/-- Appending a question to its existing group grows the total count by
one. -/
theorem totalQuestions_addToGroup (t : List Char) (q : Question) :
    ∀ acc : List (List Char × List Question), t ∈ acc.map Prod.fst →
      totalQuestions (addToGroup t q acc) = totalQuestions acc + 1 := by
  intro acc
  induction acc with
  | nil => intro h; cases h
  | cons p ps ih =>
    intro h
    unfold addToGroup
    by_cases hp : p.1 = t
    · rw [if_pos hp, totalQuestions_cons, totalQuestions_cons,
        List.length_append]
      simp
      omega
    · have ht : t ∈ ps.map Prod.fst := by
        rw [List.map_cons] at h
        rcases List.mem_cons.mp h with h1 | h1
        · exact absurd h1.symm hp
        · exact h1
      rw [if_neg hp, totalQuestions_cons, totalQuestions_cons, ih ht]
      omega

/-- The key list after inserting a question: unchanged when its type already
has a group, the type appended at the end otherwise. -/
theorem keys_insertGrouped (acc : List (List Char × List Question))
    (q : Question) :
    (insertGrouped acc q).map Prod.fst =
      if q.type ∈ acc.map Prod.fst then acc.map Prod.fst
      else acc.map Prod.fst ++ [q.type] := by
  unfold insertGrouped
  by_cases hmem : q.type ∈ acc.map Prod.fst
  · rw [if_pos hmem, if_pos hmem, keys_addToGroup]
  · rw [if_neg hmem, if_neg hmem, List.map_append]
    rfl

/-- Inserting a question grows the total count by one. -/
theorem totalQuestions_insertGrouped (acc : List (List Char × List Question))
    (q : Question) :
    totalQuestions (insertGrouped acc q) = totalQuestions acc + 1 := by
  unfold insertGrouped
  by_cases hmem : q.type ∈ acc.map Prod.fst
  · rw [if_pos hmem, totalQuestions_addToGroup q.type q acc hmem]
  · rw [if_neg hmem]
    unfold totalQuestions
    rw [List.map_append, List.sum_append]
    rfl

/-- The group keys are exactly the first occurrences of the question types,
whatever the starting accumulator. -/
theorem keys_foldl_insertGrouped :
    ∀ (qs : List Question) (acc : List (List Char × List Question)),
      (qs.foldl insertGrouped acc).map Prod.fst =
        (qs.map Question.type).foldl
          (fun ks t => if t ∈ ks then ks else ks ++ [t]) (acc.map Prod.fst) := by
  intro qs
  induction qs with
  | nil => intro acc; rfl
  | cons q rest ih =>
    intro acc
    rw [List.foldl_cons, List.map_cons, List.foldl_cons, ih,
      keys_insertGrouped]

/-- Folding questions into groups adds exactly one to the total per
question. -/
theorem totalQuestions_foldl_insertGrouped :
    ∀ (qs : List Question) (acc : List (List Char × List Question)),
      totalQuestions (qs.foldl insertGrouped acc) =
        totalQuestions acc + qs.length := by
  intro qs
  induction qs with
  | nil => intro acc; rfl
  | cons q rest ih =>
    intro acc
    rw [List.foldl_cons, ih, totalQuestions_insertGrouped, List.length_cons]
    omega

/-- The rendered numbering starting at `start` is the consecutive range
covering every question once. -/
theorem renderNumbersFrom_eq_range :
    ∀ (gs : List (List Char × List Question)) (start : Nat),
      renderNumbersFrom start gs = List.range' start (totalQuestions gs) := by
  intro gs
  induction gs with
  | nil => intro start; rfl
  | cons g rest ih =>
    intro start
    rw [renderNumbersFrom, ih, totalQuestions_cons]
    have h := List.range'_append start g.2.length (totalQuestions rest) 1
    rw [one_mul] at h
    rw [h, Nat.add_comm]

/-- The start that the component computes for group `i + 1` is the start of
group `i` plus the size of group `i`: the take-based sum of the code matches
the threaded accumulator of `renderNumbersFrom`. -/
theorem groupStart_succ (gs : List (List Char × List Question)) (i : Nat)
    (h : i < gs.length) :
    groupStart gs (i + 1) = groupStart gs i + (gs.get ⟨i, h⟩).2.length := by
  unfold groupStart
  have h2 : gs.take (i + 1) = gs.take i ++ [gs.get ⟨i, h⟩] := by
    rw [List.take_succ, List.getElem?_eq_getElem h]
    simp [List.get_eq_getElem]
  rw [h2, List.map_append, List.sum_append]
  simp
  omega

/-- C5 counterexample: the display order is the insertion order of the
question types, not a fixed category order.  A paper whose question list puts
a short-answer question before an MCQ is rendered with the short-answer group
first, so grouping is not independent of insertion order and MCQ does not
come first. -/
theorem c5_counterexample_display_order_follows_insertion :
    (groupQuestionsByType [exQSA, exQMcq]).map Prod.fst
        = [categoryKey .short_answer, categoryKey .mcq] ∧
    (groupQuestionsByType [exQSA, exQMcq]).map Prod.fst
        ≠ [categoryKey .mcq, categoryKey .short_answer] := by
  decide

/-- C5 (amended): questions are grouped by category in the order of each
category's first occurrence in the paper's question list, and the display
numbering is globally sequential, 1 up to the question count, across the
groups in that order. -/
theorem c5_grouping_and_sequential_numbering (qs : List Question) :
    (groupQuestionsByType qs).map Prod.fst
        = firstOccurrences (qs.map Question.type) ∧
    renderNumbers (groupQuestionsByType qs) = List.range' 1 qs.length := by
  constructor
  · exact keys_foldl_insertGrouped qs []
  · unfold renderNumbers
    rw [renderNumbersFrom_eq_range]
    unfold groupQuestionsByType
    rw [totalQuestions_foldl_insertGrouped]
    rw [show totalQuestions [] = 0 from rfl, Nat.zero_add]

/-- The code translation of the global regex replacement copies every leading
non-whitespace character unchanged and then continues after them. -/
theorem replaceWsRuns_nonws_run (l : List Char) :
    replaceWsRuns l =
      l.takeWhile (fun d => !isJsWs d)
        ++ replaceWsRuns (l.dropWhile (fun d => !isJsWs d)) := by
  induction l with
  | nil => rfl
  | cons c cs ih =>
    by_cases hc : isJsWs c
    · rw [List.takeWhile_cons, List.dropWhile_cons]
      simp only [hc]
      rfl
    · rw [List.takeWhile_cons, List.dropWhile_cons]
      simp only [hc]
      rw [replaceWsRuns]
      simp only [hc, if_false, Bool.not_false, if_true]
      rw [ih]
      rfl

/-- The regex translation agrees with the run-based specification reading:
replacing every maximal whitespace run by one underscore. -/
theorem replaceWsRuns_eq_specCollapseWs :
    ∀ l : List Char, replaceWsRuns l = specCollapseWs l := by
  intro l
  induction l using wsRuns.induct with
  | case1 =>
    rw [replaceWsRuns]
    unfold specCollapseWs
    rw [wsRuns]
    rfl
  | case2 c cs ih =>
    unfold specCollapseWs at ih ⊢
    rw [wsRuns, List.map_cons, List.flatten_cons]
    by_cases hc : isJsWs c
    · have hpred : (fun d => isJsWs d == isJsWs c) = isJsWs := by
        funext d
        rw [hc]
        cases isJsWs d <;> rfl
      rw [hpred] at ih ⊢
      rw [collapseRun]
      simp only [hc, if_true]
      rw [replaceWsRuns]
      simp only [hc, if_true]
      rw [ih]
      rfl
    · have hpred : (fun d => isJsWs d == isJsWs c) = (fun d => !isJsWs d) := by
        funext d
        rw [Bool.eq_false_iff.mpr hc]
        cases isJsWs d <;> rfl
      rw [hpred] at ih ⊢
      rw [collapseRun]
      simp only [hc, if_false]
      rw [replaceWsRuns_nonws_run (c :: cs)]
      rw [List.takeWhile_cons, List.dropWhile_cons]
      simp only [hc, Bool.not_false, if_true]
      rw [ih]
      rfl

/-- C10: for every subject and download format the suggested filename is the
pure function of the two arguments that the claim describes: the subject with
each maximal whitespace run replaced by a single underscore, followed by
the fixed middle part and the format extension. -/
theorem c10_download_filename_formula (subject format : List Char) :
    downloadFilename subject format = specDownloadFilename subject format := by
  unfold downloadFilename specDownloadFilename
  rw [replaceWsRuns_eq_specCollapseWs]

/-- Summing a constant over a list counts its length. -/
theorem sum_map_const_nat {α : Type} (l : List α) (m : Nat) :
    (l.map (fun _ => m)).sum = l.length * m := by
  induction l with
  | nil => simp
  | cons a as ih =>
    rw [List.map_cons, List.sum_cons, ih, List.length_cons, Nat.succ_mul,
      Nat.add_comm]

/-- The marks of the questions one category contributes are that category's
fixed value, once per question actually generated. -/
theorem categoryQuestions_marks (c : Category) (counts : Category → Nat)
    (raws : Category → List RawItem) :
    ((categoryQuestions c counts raws).map Question.marks).sum =
      (genQuestions c (counts c) (raws c)).length * marksPerQuestion c := by
  unfold categoryQuestions
  rw [List.map_map]
  exact sum_map_const_nat _ _

/-- C1: for every generated paper, the total-marks field equals the sum of
the marks of the questions the paper actually contains, computed from the
returned questions rather than the requested counts, so a partial generation
failure in any category (modelled by `raws` validating fewer items than
requested) is reflected in the total. -/
theorem c1_total_marks_is_sum_of_actual_marks (subject : List Char)
    (duration : Nat) (difficulty : List Char) (counts : Category → Nat)
    (raws : Category → List RawItem) :
    (assemble subject duration difficulty counts raws).total_marks =
      (((assemble subject duration difficulty counts raws).questions).map
        Question.marks).sum := by
  unfold assemble
  dsimp only
  rw [List.map_flatten, List.sum_flatten, List.map_map, List.map_map]
  refine congrArg List.sum (List.map_congr_left ?_)
  intro c _
  exact (categoryQuestions_marks c counts raws).symm

/-- Every question draft of a generated batch came from a candidate item that
validated against the category schema. -/
theorem mem_genQuestions {c : Category} {n : Nat} {raws : List RawItem}
    {d : QuestionDraft} (h : d ∈ genQuestions c n raws) :
    ∃ r, parseItem c r = some d := by
  unfold genQuestions at h
  obtain ⟨r, _, hpr⟩ := List.mem_filterMap.mp ((List.take_sublist n _).mem h)
  exact ⟨r, hpr⟩

/-- A validated choice draft carries exactly four options. -/
theorem parseItem_mcq_options {r : RawItem} {d : QuestionDraft}
    (h : parseItem .mcq r = some d) :
    ∃ opts, d.options = some opts ∧ opts.length = 4 := by
  unfold parseItem at h
  by_cases h4 : r.options.length = 4
  · rw [if_pos h4] at h
    cases h
    exact ⟨r.options, rfl, h4⟩
  · rw [if_neg h4] at h
    cases h

/-- A validated draft of any non-choice category carries no options. -/
theorem parseItem_nonmcq_options {c : Category} {r : RawItem}
    {d : QuestionDraft} (hc : c ≠ .mcq) (h : parseItem c r = some d) :
    d.options = none := by
  cases c with
  | mcq => exact absurd rfl hc
  | short_answer => cases h; rfl
  | long_answer => cases h; rfl
  | case_study => cases h; rfl
  | application_based => cases h; rfl
  | numerical => cases h; rfl

/-- Only the choice category renders under the mcq key. -/
theorem categoryKey_eq_mcq {c : Category}
    (h : categoryKey c = categoryKey .mcq) : c = .mcq := by
  revert h
  cases c <;> decide

/-- A four-element options list is labelled A, B, C, D by the display
component. -/
theorem optionLabels_of_four {opts : List (List Char)} (h : opts.length = 4) :
    optionLabels opts = ['A', 'B', 'C', 'D'] := by
  unfold optionLabels
  rw [h]
  decide

/-- C2: every question of a generated paper satisfies the options invariant:
a choice-type question carries exactly 4 options, rendered with the labels A
to D, and a question of any other type carries no options at all. -/
theorem c2_options_invariant (subject : List Char) (duration : Nat)
    (difficulty : List Char) (counts : Category → Nat)
    (raws : Category → List RawItem) (q : Question)
    (hq : q ∈ (assemble subject duration difficulty counts raws).questions) :
    (q.type = categoryKey .mcq →
      ∃ opts, q.options = some opts ∧ opts.length = 4 ∧
        optionLabels opts = ['A', 'B', 'C', 'D']) ∧
    (q.type ≠ categoryKey .mcq → q.options = none) := by
  unfold assemble at hq
  simp only [List.mem_flatten, List.mem_map] at hq
  rcases hq with ⟨l, ⟨c, hc, rfl⟩, hql⟩
  unfold categoryQuestions at hql
  rcases List.mem_map.mp hql with ⟨d, hd, rfl⟩
  rcases mem_genQuestions hd with ⟨r, hr⟩
  by_cases hmcq : c = Category.mcq
  · subst hmcq
    rcases parseItem_mcq_options hr with ⟨opts, ho, h4⟩
    constructor
    · intro _
      exact ⟨opts, ho, h4, optionLabels_of_four h4⟩
    · intro hne
      exact absurd rfl hne
  · constructor
    · intro hkey
      exact absurd (categoryKey_eq_mcq hkey) hmcq
    · intro _
      exact parseItem_nonmcq_options hmcq hr

/-- Witness for C2: the single MCQ generated from `exCounts` and `exRaws`. -/
theorem c2_options_invariant_witness :
    (exMcqQ.type = categoryKey .mcq →
      ∃ opts, exMcqQ.options = some opts ∧ opts.length = 4 ∧
        optionLabels opts = ['A', 'B', 'C', 'D']) ∧
    (exMcqQ.type ≠ categoryKey .mcq → exMcqQ.options = none) :=
  c2_options_invariant "Biology".data 60 "medium".data exCounts exRaws exMcqQ
    (by decide)

/-- The ranking order is total. -/
theorem rankLE_total (a b : RetrievalResult) : rankLE a b ∨ rankLE b a := by
  unfold rankLE
  rcases lt_trichotomy a.score b.score with h | h | h
  · exact Or.inr (Or.inl h)
  · rcases Nat.le_total a.chunk.chunk_id b.chunk.chunk_id with hle | hle
    · exact Or.inl (Or.inr ⟨h, hle⟩)
    · exact Or.inr (Or.inr ⟨h.symm, hle⟩)
  · exact Or.inl (Or.inl h)

/-- The ranking order is transitive. -/
theorem rankLE_trans {a b c : RetrievalResult} (hab : rankLE a b)
    (hbc : rankLE b c) : rankLE a c := by
  unfold rankLE at hab hbc ⊢
  rcases hab with h1 | ⟨h1, h2⟩ <;> rcases hbc with h3 | ⟨h3, h4⟩
  · exact Or.inl (lt_trans h3 h1)
  · exact Or.inl (by rw [← h3]; exact h1)
  · exact Or.inl (by rw [h1]; exact h3)
  · exact Or.inr ⟨h1.trans h3, le_trans h2 h4⟩

/-- Ranked insertion only permutes the inserted element in. -/
theorem perm_insertRanked (x : RetrievalResult) :
    ∀ l : List RetrievalResult, List.Perm (insertRanked x l) (x :: l) := by
  intro l
  induction l with
  | nil => exact List.Perm.refl _
  | cons y ys ih =>
    unfold insertRanked
    by_cases h : rankLE x y
    · rw [if_pos h]
    · rw [if_neg h]
      exact (ih.cons y).trans (List.Perm.swap x y ys)

/-- Members of a ranked insertion. -/
theorem mem_insertRanked {x z : RetrievalResult} {l : List RetrievalResult}
    (h : z ∈ insertRanked x l) : z = x ∨ z ∈ l := by
  have := (perm_insertRanked x l).mem_iff.mp h
  rcases List.mem_cons.mp this with h1 | h1
  · exact Or.inl h1
  · exact Or.inr h1

/-- Ranked insertion preserves sortedness. -/
theorem pairwise_insertRanked {x : RetrievalResult}
    {l : List RetrievalResult} (hl : List.Pairwise rankLE l) :
    List.Pairwise rankLE (insertRanked x l) := by
  induction l with
  | nil => exact List.pairwise_singleton rankLE x
  | cons y ys ih =>
    unfold insertRanked
    by_cases h : rankLE x y
    · rw [if_pos h]
      refine List.Pairwise.cons ?_ hl
      intro z hz
      rcases List.mem_cons.mp hz with h1 | h1
      · rw [h1]
        exact h
      · exact rankLE_trans h (List.rel_of_pairwise_cons hl h1)
    · rw [if_neg h]
      have hyx : rankLE y x := (rankLE_total x y).resolve_left h
      refine List.Pairwise.cons ?_ (ih hl.of_cons)
      intro z hz
      rcases mem_insertRanked hz with h1 | h1
      · rw [h1]
        exact hyx
      · exact List.rel_of_pairwise_cons hl h1

/-- Insertion sort permutes its input. -/
theorem perm_sortRanked (l : List RetrievalResult) :
    List.Perm (sortRanked l) l := by
  induction l with
  | nil => exact List.Perm.refl _
  | cons a as ih =>
    unfold sortRanked
    rw [List.foldr_cons]
    exact (perm_insertRanked a _).trans (ih.cons a)

/-- Insertion sort sorts by the ranking order. -/
theorem pairwise_sortRanked (l : List RetrievalResult) :
    List.Pairwise rankLE (sortRanked l) := by
  induction l with
  | nil => exact List.Pairwise.nil
  | cons a as ih =>
    unfold sortRanked
    rw [List.foldr_cons]
    exact pairwise_insertRanked ih

/-- C6: for every index content, query vector and bound k, provided the
indexed chunk identifiers are pairwise distinct, the query returns at most k
results, their scores are non-increasing, and any two results with equal
scores appear in ascending chunk-identifier order, so the result sequence is
uniquely determined. -/
theorem c6_query_topk_sorted_deterministic (chunks : List EmbeddedChunk)
    (v : List ℤ) (k : Nat)
    (h : (chunks.map EmbeddedChunk.chunk_id).Nodup) :
    (queryIndex chunks v k).length ≤ k ∧
    List.Pairwise (fun a b => b.score ≤ a.score) (queryIndex chunks v k) ∧
    List.Pairwise
      (fun a b => a.score = b.score → a.chunk.chunk_id < b.chunk.chunk_id)
      (queryIndex chunks v k) := by
  have hrank : List.Pairwise rankLE (queryIndex chunks v k) :=
    (pairwise_sortRanked _).sublist (List.take_sublist _ _)
  have hne :
      List.Pairwise
        (fun a b : RetrievalResult => a.chunk.chunk_id ≠ b.chunk.chunk_id)
        (queryIndex chunks v k) := by
    have hpw : List.Pairwise (fun a b => a ≠ b)
        (chunks.map EmbeddedChunk.chunk_id) := h
    have h0 :
        List.Pairwise
          (fun a b : RetrievalResult => a.chunk.chunk_id ≠ b.chunk.chunk_id)
          (chunks.map (fun c => ⟨c, dotp v c.vector⟩)) := by
      rw [List.pairwise_map]
      rw [List.pairwise_map] at hpw
      exact hpw
    have h1 := (List.Perm.pairwise_iff (fun hxy => hxy.symm)
      (perm_sortRanked (chunks.map (fun c => ⟨c, dotp v c.vector⟩)))).mpr h0
    exact h1.sublist (List.take_sublist _ _)
  refine ⟨List.length_take_le k _, ?_, ?_⟩
  · refine hrank.imp ?_
    intro a b hab
    rcases hab with h1 | ⟨h1, _⟩
    · exact le_of_lt h1
    · exact le_of_eq h1.symm
  · refine (hrank.and hne).imp ?_
    intro a b hab heq
    rcases hab with ⟨h1 | ⟨_, h2⟩, hids⟩
    · exact absurd (heq ▸ h1) (lt_irrefl _)
    · exact lt_of_le_of_ne h2 hids

/-- Witness for C6 on the two-chunk index. -/
theorem c6_query_topk_sorted_deterministic_witness :
    (queryIndex exChunks [1, 0] 2).length ≤ 2 ∧
    List.Pairwise (fun a b => b.score ≤ a.score) (queryIndex exChunks [1, 0] 2) ∧
    List.Pairwise
      (fun a b => a.score = b.score → a.chunk.chunk_id < b.chunk.chunk_id)
      (queryIndex exChunks [1, 0] 2) :=
  c6_query_topk_sorted_deterministic exChunks [1, 0] 2 (by decide)

/-- Every state reachable from a starting index state is that starting state
or a fully built index from some successful rebuild in the trace. -/
theorem runIndexOps_cases :
    ∀ (ops : List IndexOp) (s : Option VectorIndex),
      runIndexOps s ops = s ∨
        ∃ cs, IndexOp.rebuild cs true ∈ ops ∧
          runIndexOps s ops = some (buildIndex cs) := by
  intro ops
  induction ops with
  | nil => intro s; exact Or.inl rfl
  | cons op rest ih =>
    intro s
    rcases op with ⟨cs, ok⟩
    cases ok with
    | false =>
      rcases ih s with h | ⟨cs2, hmem, heq⟩
      · exact Or.inl h
      · exact Or.inr ⟨cs2, List.mem_cons_of_mem _ hmem, heq⟩
    | true =>
      rcases ih (some (buildIndex cs)) with h | ⟨cs2, hmem, heq⟩
      · exact Or.inr ⟨cs, List.mem_cons_self _ _, h⟩
      · exact Or.inr ⟨cs2, List.mem_cons_of_mem _ hmem, heq⟩

/-- C7: a rebuild is atomic.  A failed rebuild step leaves the previous index
state untouched and a successful one swaps in the fully built index, and
consequently the state visible after any trace of rebuild attempts, which is
what every query reads, is either no index at all or the complete index built
by some successful rebuild of the trace: no half-built state is ever
observable. -/
theorem c7_rebuild_atomic (ops : List IndexOp) :
    (∀ (s : Option VectorIndex) (cs : List EmbeddedChunk),
      stepIndex s (.rebuild cs false) = s ∧
        stepIndex s (.rebuild cs true) = some (buildIndex cs)) ∧
    (runIndexOps none ops = none ∨
      ∃ cs, IndexOp.rebuild cs true ∈ ops ∧
        runIndexOps none ops = some (buildIndex cs)) :=
  ⟨fun _ _ => ⟨rfl, rfl⟩, runIndexOps_cases ops none⟩

/-- A successfully extracted section is never empty. -/
theorem extractSection_ne_nil {label : List Char} {lines : List (List Char)}
    {s : List Char} (h : extractSection label lines = some s) : s ≠ [] := by
  unfold extractSection at h
  rcases hdrop : lines.dropWhile (fun l => l != label) with _ | ⟨hd, rest⟩
  · rw [hdrop] at h
    cases h
  · rw [hdrop] at h
    dsimp only at h
    by_cases hemp :
        ((rest.takeWhile (fun l => !(sectionLabels.contains l))).flatten).isEmpty
    · rw [if_pos hemp] at h
      cases h
    · rw [if_neg hemp] at h
      cases h
      intro hnil
      exact hemp (by rw [hnil]; rfl)

/-- The parsed structured answer always has three non-empty fields, whether
the completion parsed or the deterministic degraded fallback was used. -/
theorem parseAnswer_fields_nonempty (lines : List (List Char))
    (topChunk : List Char) :
    (parseAnswer lines topChunk).direct_answer ≠ [] ∧
    (parseAnswer lines topChunk).explanation ≠ [] ∧
    (parseAnswer lines topChunk).summary ≠ [] := by
  have hfb :
      (fallbackAnswer topChunk).direct_answer ≠ [] ∧
      (fallbackAnswer topChunk).explanation ≠ [] ∧
      (fallbackAnswer topChunk).summary ≠ [] := by
    unfold fallbackAnswer
    by_cases he : topChunk.isEmpty
    · rw [if_pos he]
      dsimp only
      refine ⟨by decide, by decide, by decide⟩
    · rw [if_neg he]
      dsimp only
      refine ⟨?_, by decide, by decide⟩
      intro hnil
      rw [hnil] at he
      exact he rfl
  unfold parseAnswer
  rcases h1 : extractSection "Direct Answer:".data lines with _ | a
  · exact hfb
  · rcases h2 : extractSection "Explanation:".data lines with _ | b
    · exact hfb
    · rcases h3 : extractSection "Summary:".data lines with _ | c
      · exact hfb
      · exact ⟨extractSection_ne_nil h1, extractSection_ne_nil h2,
          extractSection_ne_nil h3⟩

/-- C4: every successful ask call produces a structured answer whose three
fields are all present and non-empty, including when the completion was
malformed and the deterministic degraded fallback was used: the structured
schema is never violated. -/
theorem c4_successful_ask_answer_fields_nonempty (question : List Char)
    (qv : List ℤ) (index : Option VectorIndex)
    (completionLines : List (List Char)) (a : StructuredAnswer)
    (h : (ask question qv index completionLines).result = .ok a) :
    a.direct_answer ≠ [] ∧ a.explanation ≠ [] ∧ a.summary ≠ [] := by
  unfold ask at h
  by_cases hq : (jsTrim question).isEmpty
  · rw [if_pos hq] at h
    cases h
  · rw [if_neg hq] at h
    rcases index with _ | idx
    · cases h
    · dsimp only at h
      have ha : a = parseAnswer completionLines (topPassage idx qv) :=
        (Except.ok.injEq _ _ |>.mp h).symm
      rw [ha]
      exact parseAnswer_fields_nonempty completionLines (topPassage idx qv)

/-- Witness for C4: a successful ask over an empty index with an unparseable
completion, answered by the degraded fallback. -/
theorem c4_successful_ask_answer_fields_nonempty_witness :
    (parseAnswer [] (topPassage (buildIndex []) [])).direct_answer ≠ [] ∧
    (parseAnswer [] (topPassage (buildIndex []) [])).explanation ≠ [] ∧
    (parseAnswer [] (topPassage (buildIndex []) [])).summary ≠ [] :=
  c4_successful_ask_answer_fields_nonempty "What is photosynthesis?".data []
    (some (buildIndex [])) [] (parseAnswer [] (topPassage (buildIndex []) []))
    rfl
